import Mathlib

/-!
Shallow embedding of the ingestion / normalization / aggregation core of
`fetch_policy_emails.py` (outlook-policy-reporter), together with proofs of
the behavioural properties claimed for it.

Modelling conventions:
* Python `datetime.datetime` values are `PyDateTime` (wall-clock seconds plus
  an optional utc offset); sub-second precision is not modelled.
* The machine local timezone (the target of `astimezone()`) is an explicit
  offset argument `loc` (seconds).
* `email.utils.parsedate_to_datetime` is modelled concretely for the standard
  RFC-2822 date layout; where a theorem only needs it abstractly it is an
  explicit function argument.
* Fallible COM / filesystem / network accesses are modelled by `Option`
  fields on the raw-message and store records (`none` = the access raises or
  the attribute is absent).
-/

set_option maxRecDepth 100000

namespace PolicyReporter

/-- Model of a Python `datetime.datetime`: `sec` is the wall-clock value in
seconds since 1970-01-01 00:00:00 (of the displayed fields, proleptic
Gregorian), `off` is the utc offset in seconds when the value is
timezone-aware, and `none` when the value is naive. -/
structure PyDateTime where
  sec : Int
  off : Option Int
deriving DecidableEq, Repr

/-- The datetime-level core of `to_naive_local`: a naive datetime is returned
as-is, an aware one is converted by `dt.astimezone().replace(tzinfo=None)` —
the wall clock moves from the datetime offset to the local offset `loc` and
the timezone is then dropped. -/
def to_naive_local1 (loc : Int) (dt : PyDateTime) : PyDateTime :=
  match dt.off with
  | none => dt
  | some o => { sec := dt.sec - o + loc, off := none }

/-- Function `to_naive_local` from the source (`None` propagates). -/
def to_naive_local (loc : Int) : Option PyDateTime → Option PyDateTime
  | none => none
  | some dt => some (to_naive_local1 loc dt)

/-- Python `str.isspace` characters relevant to `str.strip()`. -/
def pyIsSpace (c : Char) : Bool :=
  c = ' ' || c = '\t' || c = '\n' || c = '\r' || c = '\x0b' || c = '\x0c'

/-- Python `str.strip()` on a character list. -/
def pyStripList (cs : List Char) : List Char :=
  ((cs.dropWhile pyIsSpace).reverse.dropWhile pyIsSpace).reverse

/-- Python `str.strip()`. -/
def pyStrip (s : String) : String := ⟨pyStripList s.data⟩

/-- Python `str.splitlines()` (the line boundaries that occur in mail headers:
`\n`, `\r`, `\r\n`); a trailing terminator does not open a final empty line. -/
def pySplitlinesAux : List Char → List Char → List (List Char)
  | acc, [] => if acc.isEmpty then [] else [acc.reverse]
  | acc, '\r' :: '\n' :: rest => acc.reverse :: pySplitlinesAux [] rest
  | acc, '\r' :: rest => acc.reverse :: pySplitlinesAux [] rest
  | acc, '\n' :: rest => acc.reverse :: pySplitlinesAux [] rest
  | acc, c :: rest => pySplitlinesAux (c :: acc) rest

def pySplitlines (s : String) : List (List Char) := pySplitlinesAux [] s.data

/-- The text after the first `:` of a line (Python `line.split(':', 1)[1]`);
`none` when the line holds no colon. -/
def afterFirstColon : List Char → Option (List Char)
  | [] => none
  | ':' :: rest => some rest
  | _ :: rest => afterFirstColon rest

/-- Function `_parse_header_date_from_raw_headers` from the source: scan the raw
header block for the first line starting (case-insensitively) with `date:`,
take the text after the first colon, strip it, hand it to
`parsedate_to_datetime` (the `parsedate` argument; `none` models both a
`None` result and a raised exception) and convert the result to naive local
time. -/
def _parse_header_date_from_raw_headers (loc : Int)
    (parsedate : String → Option PyDateTime) (raw_headers : String) :
    Option PyDateTime :=
  if raw_headers.data.isEmpty then none
  else
    match (pySplitlines raw_headers).find?
        (fun l => "date:".data.isPrefixOf (l.map Char.toLower)) with
    | none => none
    | some l =>
      let date_line := pyStripList ((afterFirstColon l).getD [])
      if date_line.isEmpty then none
      else
        match parsedate ⟨date_line⟩ with
        | none => none
        | some dt => to_naive_local loc (some dt)

/-! ### Calendar arithmetic and Python `str(datetime)` -/

/-- Proleptic-Gregorian civil date `(year, month, day)` from a count of days
since 1970-01-01 (the standard era-based algorithm). -/
def civilFromDays (z0 : Int) : Int × Nat × Nat :=
  let z := z0 + 719468
  let era := z.fdiv 146097
  let doe := (z - era * 146097).toNat
  let yoe := (doe - doe / 1460 + doe / 36524 - doe / 146096) / 365
  let y := (yoe : Int) + era * 400
  let doy := doe - (365 * yoe + yoe / 4 - yoe / 100)
  let mp := (5 * doy + 2) / 153
  let d := doy - (153 * mp + 2) / 5 + 1
  let m := if mp < 10 then mp + 3 else mp - 9
  (if m ≤ 2 then y + 1 else y, m, d)

/-- Decimal rendering of `n` zero-padded to width `w`. -/
def padNum (w : Nat) (n : Nat) : String :=
  let s := Nat.toDigits 10 n
  ⟨List.replicate (w - s.length) '0' ++ s⟩

/-- Python `str()` of a naive `datetime` with zero microseconds:
`YYYY-MM-DD HH:MM:SS`.  The source only interpolates `received`, which is
naive (output of `to_naive_local`), so only the naive rendering is modelled. -/
def pyStrDateTime (dt : PyDateTime) : String :=
  let days := dt.sec.fdiv 86400
  let sod := (dt.sec.fmod 86400).toNat
  let c := civilFromDays days
  padNum 4 c.1.toNat ++ "-" ++ padNum 2 c.2.1 ++ "-" ++ padNum 2 c.2.2 ++ " " ++
    padNum 2 (sod / 3600) ++ ":" ++ padNum 2 (sod % 3600 / 60) ++ ":" ++
    padNum 2 (sod % 60)

/-! ### SHA-256 (`hashlib.sha256(...).hexdigest()`) -/

/-- UTF-8 encoding of one Unicode scalar value. -/
def utf8EncodeCharNat (n : Nat) : List Nat :=
  if n < 0x80 then [n]
  else if n < 0x800 then
    [0xC0 ||| (n >>> 6), 0x80 ||| (n &&& 0x3F)]
  else if n < 0x10000 then
    [0xE0 ||| (n >>> 12), 0x80 ||| ((n >>> 6) &&& 0x3F), 0x80 ||| (n &&& 0x3F)]
  else
    [0xF0 ||| (n >>> 18), 0x80 ||| ((n >>> 12) &&& 0x3F),
     0x80 ||| ((n >>> 6) &&& 0x3F), 0x80 ||| (n &&& 0x3F)]

/-- Python `s.encode(utf-8)` as a byte list. -/
def utf8Bytes (s : String) : List Nat :=
  (s.data.map (fun c => utf8EncodeCharNat c.toNat)).flatten

def rotr32 (x n : Nat) : Nat := ((x >>> n) ||| (x <<< (32 - n))) % 4294967296

def smallSigma0 (x : Nat) : Nat := rotr32 x 7 ^^^ rotr32 x 18 ^^^ (x >>> 3)
def smallSigma1 (x : Nat) : Nat := rotr32 x 17 ^^^ rotr32 x 19 ^^^ (x >>> 10)
def bigSigma0 (x : Nat) : Nat := rotr32 x 2 ^^^ rotr32 x 13 ^^^ rotr32 x 22
def bigSigma1 (x : Nat) : Nat := rotr32 x 6 ^^^ rotr32 x 11 ^^^ rotr32 x 25

def sha256K : List Nat :=
  [1116352408, 1899447441, 3049323471, 3921009573,
   961987163, 1508970993, 2453635748, 2870763221,
   3624381080, 310598401, 607225278, 1426881987,
   1925078388, 2162078206, 2614888103, 3248222580,
   3835390401, 4022224774, 264347078, 604807628,
   770255983, 1249150122, 1555081692, 1996064986,
   2554220882, 2821834349, 2952996808, 3210313671,
   3336571891, 3584528711, 113926993, 338241895,
   666307205, 773529912, 1294757372, 1396182291,
   1695183700, 1986661051, 2177026350, 2456956037,
   2730485921, 2820302411, 3259730800, 3345764771,
   3516065817, 3600352804, 4094571909, 275423344,
   430227734, 506948616, 659060556, 883997877,
   958139571, 1322822218, 1537002063, 1747873779,
   1955562222, 2024104815, 2227730452, 2361852424,
   2428436474, 2756734187, 3204031479, 3329325298]

def sha256H0 : List Nat :=
  [1779033703, 3144134277, 1013904242, 2773480762,
   1359893119, 2600822924, 528734635, 1541459225]

/-- Merkle–Damgård padding: append `0x80`, zero bytes to 56 mod 64, then the
message bit length as eight big-endian bytes. -/
def sha256pad (msg : List Nat) : List Nat :=
  let L := msg.length
  let k := (64 - ((L + 9) % 64)) % 64
  let bitlen := 8 * L
  msg ++ [0x80] ++ List.replicate k 0 ++
    ((List.range 8).map (fun i => (bitlen >>> (8 * (7 - i))) % 256))

/-- Group a byte list into big-endian 32-bit words. -/
def bytesToWords : List Nat → List Nat
  | b0 :: b1 :: b2 :: b3 :: rest =>
    (((b0 * 256 + b1) * 256 + b2) * 256 + b3) :: bytesToWords rest
  | _ => []

/-- Extend the 16 chunk words to the 64-entry message schedule. -/
def sha256Schedule (w16 : List Nat) : Array Nat :=
  (List.range 48).foldl
    (fun w _ =>
      let i := w.size
      w.push ((w.getD (i - 16) 0 + smallSigma0 (w.getD (i - 15) 0) +
        w.getD (i - 7) 0 + smallSigma1 (w.getD (i - 2) 0)) % 4294967296))
    w16.toArray

/-- The 64-round compression function applied to one chunk schedule. -/
def sha256Compress (h0 : List Nat) (w : Array Nat) : List Nat :=
  let st := (List.range 64).foldl
    (fun st i =>
      match st with
      | [a, b, c, d, e, f, g, h] =>
        let ch := (e &&& f) ^^^ ((e ^^^ 4294967295) &&& g)
        let maj := (a &&& b) ^^^ (a &&& c) ^^^ (b &&& c)
        let t1 := (h + bigSigma1 e + ch + sha256K.getD i 0 + w.getD i 0) %
          4294967296
        let t2 := (bigSigma0 a + maj) % 4294967296
        [(t1 + t2) % 4294967296, a, b, c, (d + t1) % 4294967296, e, f, g]
      | other => other) h0
  (h0.zip st).map (fun p => (p.1 + p.2) % 4294967296)

/-- Split a byte list into 64-byte chunks (structural recursion on a fuel
argument so that the kernel can evaluate it; `fuel = l.length` always
suffices since every step consumes at least one byte). -/
def chunks64Go : Nat → List Nat → List (List Nat)
  | _, [] => []
  | 0, l => [l]
  | fuel + 1, l => l.take 64 :: chunks64Go fuel (l.drop 64)

/-- Split a byte list into 64-byte chunks. -/
def chunks64 (l : List Nat) : List (List Nat) := chunks64Go l.length l

/-- SHA-256 digest of a byte list, as eight 32-bit words. -/
def sha256Words (msg : List Nat) : List Nat :=
  (chunks64 (sha256pad msg)).foldl
    (fun h chunk => sha256Compress h (sha256Schedule (bytesToWords chunk)))
    sha256H0

def hexDigit (n : Nat) : Char :=
  if n < 10 then Char.ofNat (48 + n) else Char.ofNat (87 + n)

def word32ToHex (n : Nat) : List Char :=
  (List.range 8).map (fun i => hexDigit ((n >>> (4 * (7 - i))) % 16))

/-- Model of `hashlib.sha256(key.encode(utf-8)).hexdigest()`. -/
def sha256hex (s : String) : String :=
  ⟨((sha256Words (utf8Bytes s)).map word32ToHex).flatten⟩

/-! ### Inverse calendar map and `strftime` -/

/-- Days since 1970-01-01 of a proleptic-Gregorian civil date (inverse of
`civilFromDays`). -/
def daysFromCivil (y0 : Int) (m d : Nat) : Int :=
  let y := if m ≤ 2 then y0 - 1 else y0
  let era := y.fdiv 400
  let yoe := (y - era * 400).toNat
  let mp := if m > 2 then m - 3 else m + 9
  let doy := (153 * mp + 2) / 5 + d - 1
  let doe := yoe * 365 + yoe / 4 - yoe / 100 + doy
  era * 146097 + (doe : Int) - 719468

/-- Model of `dt.strftime(%Y%m%d_%H%M%S)` for a naive datetime. -/
def strftimeCompact (dt : PyDateTime) : String :=
  let days := dt.sec.fdiv 86400
  let sod := (dt.sec.fmod 86400).toNat
  let c := civilFromDays days
  padNum 4 c.1.toNat ++ padNum 2 c.2.1 ++ padNum 2 c.2.2 ++ "_" ++
    padNum 2 (sod / 3600) ++ padNum 2 (sod % 3600 / 60) ++ padNum 2 (sod % 60)

/-- Model of `dt.strftime(%y%m%d)` for a naive datetime (the report-label format). -/
def strftimeYYMMDD (dt : PyDateTime) : String :=
  let days := dt.sec.fdiv 86400
  let c := civilFromDays days
  padNum 2 (c.1.toNat % 100) ++ padNum 2 c.2.1 ++ padNum 2 c.2.2

/-! ### A concrete model of `email.utils.parsedate_to_datetime` -/

/-- Whitespace-separated words of a character list. -/
def wordsAux : List Char → List Char → List (List Char)
  | acc, [] => if acc.isEmpty then [] else [acc.reverse]
  | acc, c :: rest =>
    if pyIsSpace c then
      if acc.isEmpty then wordsAux [] rest else acc.reverse :: wordsAux [] rest
    else wordsAux (c :: acc) rest

/-- All-digit token to a number. -/
def parseDigits (cs : List Char) : Option Nat :=
  if !cs.isEmpty && cs.all Char.isDigit then
    some (cs.foldl (fun n c => 10 * n + (c.toNat - 48)) 0)
  else none

/-- Month number from an RFC-2822 month name (case-insensitive). -/
def monthNum (cs : List Char) : Option Nat :=
  let l : String := ⟨cs.map Char.toLower⟩
  if l = "jan" then some 1 else if l = "feb" then some 2
  else if l = "mar" then some 3 else if l = "apr" then some 4
  else if l = "may" then some 5 else if l = "jun" then some 6
  else if l = "jul" then some 7 else if l = "aug" then some 8
  else if l = "sep" then some 9 else if l = "oct" then some 10
  else if l = "nov" then some 11 else if l = "dec" then some 12
  else none

/-- Parse an `HH:MM:SS` (or `HH:MM`) token to seconds past midnight. -/
def parseHMS (cs : List Char) : Option Nat :=
  match cs.splitOn ':' with
  | [h, m, s] =>
    match parseDigits h, parseDigits m, parseDigits s with
    | some hh, some mm, some ss =>
      if hh < 24 && mm < 60 && ss < 60 then some (hh * 3600 + mm * 60 + ss)
      else none
    | _, _, _ => none
  | [h, m] =>
    match parseDigits h, parseDigits m with
    | some hh, some mm =>
      if hh < 24 && mm < 60 then some (hh * 3600 + mm * 60) else none
    | _, _ => none
  | _ => none

/-- Zone token: `some none` is a naive result (the RFC `-0000` convention, or
no usable zone), `some (some o)` an aware one with offset `o` seconds,
`none` a parse failure. -/
def parseZone (cs : List Char) : Option (Option Int) :=
  match cs with
  | '+' :: ds =>
    match parseDigits ds with
    | some v =>
      if ds.length = 4 then some (some ((v / 100) * 3600 + (v % 100) * 60))
      else none
    | none => none
  | '-' :: ds =>
    match parseDigits ds with
    | some v =>
      if ds.length = 4 then
        if v = 0 then some none
        else some (some (-((v / 100 : Nat) * 3600 + (v % 100) * 60 : Nat)))
      else none
    | none => none
  | _ =>
    let l : String := ⟨cs.map Char.toLower⟩
    if l = "gmt" || l = "ut" || l = "utc" then some (some 0) else none

/-- Concrete model of `email.utils.parsedate_to_datetime` for the standard
RFC-2822 layout `[Www, ]DD Mon YYYY HH:MM[:SS] [zone]`: a numeric or named
UTC zone yields an aware datetime, `-0000` or an absent zone a naive one;
every other shape is `none` (modelling both a `None` result and a raised
exception). -/
def parsedateModel (s : String) : Option PyDateTime :=
  let ws := wordsAux [] s.data
  let ws := match ws with
    | w :: rest => if w.contains ',' then rest else w :: rest
    | [] => []
  let build := fun (d mo y t : List Char) (z : Option (List Char)) =>
    match parseDigits d, monthNum mo, parseDigits y, parseHMS t with
    | some dd, some mm, some yy, some tt =>
      if 1 ≤ dd && dd ≤ 31 then
        let sec := daysFromCivil (yy : Int) mm dd * 86400 + (tt : Int)
        match z with
        | none => some { sec := sec, off := none }
        | some zw =>
          match parseZone zw with
          | none => none
          | some off => some { sec := sec, off := off }
      else none
    | _, _, _, _ => none
  match ws with
  | [d, mo, y, t] => build d mo y t none
  | [d, mo, y, t, z] => build d mo y t (some z)
  | _ => none

/-! ### Raw messages and `save_mail_and_attachments` -/

/-- Python `x or y` for an optional string (`None` and the empty string are
falsy). -/
def pyOrStr (x : Option String) (y : String) : String :=
  match x with
  | some s => if s.isEmpty then y else s
  | none => y

/-- Truthiness of an optional string. -/
def truthyStr : Option String → Bool
  | none => false
  | some s => !s.isEmpty

/-- A raw Outlook mail item as the source reads it through COM `getattr`
calls: `none` models an absent attribute or a raised property access.
Attachments are represented by their `FileName` values (`none` = no usable
file name, skipped by the source). -/
structure RawMsg where
  subject : Option String
  senderName : Option String
  senderEmailAddress : Option String
  body : Option String
  receivedTime : Option PyDateTime
  internetMessageID : Option String
  entryID : Option String
  rawHeaders : Option String
  attachments : List (Option String)
deriving Repr, DecidableEq

/-- Last index of a character satisfying `p` (Python `str.rfind`). -/
def rfindIdx (p : Char → Bool) (cs : List Char) : Option Nat :=
  match cs.reverse.findIdx? p with
  | none => none
  | some i => some (cs.length - 1 - i)

/-- Model of `os.path.splitext`: split at the last dot that lies after the last path
separator, unless every character of the basename before it is a dot. -/
def splitext (p : List Char) : List Char × List Char :=
  let sepIndex : Int := match rfindIdx (fun c => c = '/' || c = '\\') p with
    | none => -1
    | some i => (i : Int)
  let dotIndex : Int := match rfindIdx (fun c => c = '.') p with
    | none => -1
    | some i => (i : Int)
  if dotIndex > sepIndex then
    let fi := (sepIndex + 1).toNat
    let di := dotIndex.toNat
    if ((p.drop fi).take (di - fi)).any (fun c => c ≠ '.') then
      (p.take di, p.drop di)
    else (p, [])
  else (p, [])

/-- The attachment-extension whitelist of the source. -/
def allowed_exts : List String :=
  [".pdf", ".docx", ".doc", ".xlsx", ".xls", ".pptx", ".ppt", ".txt", ".csv"]

/-- The part of `save_mail_and_attachments`s return value that the claims
are about (`txt_path` is `base_name` + `.txt` inside the output directory;
the directory itself carries no logic). -/
structure NormResult where
  base_name : String
  received : PyDateTime
  message_id : String
  chosen_date : PyDateTime
  date_source : String
  saved_att : List String
deriving Repr, DecidableEq

/-- Function `save_mail_and_attachments` from the source.  `loc` is the local utc
offset, `now` the value a `datetime.datetime.now()` call would deliver
(used only when `ReceivedTime` is absent), `parsedate` the model of
`email.utils.parsedate_to_datetime`.  File writes are modelled by returning
the names that are written; a failing `SaveAsFile` (swallowed by the source
with a warning) is not modelled, i.e. the success path is embedded. -/
def save_mail_and_attachments (loc : Int) (now : PyDateTime)
    (parsedate : String → Option PyDateTime) (msg : RawMsg) : NormResult :=
  let subj := pyOrStr msg.subject "no_subject"
  let received := to_naive_local1 loc (msg.receivedTime.getD now)
  let safe_subj : String :=
    ⟨(pyStripList (subj.data.filter
      (fun c => c.isAlphanum || c = ' ' || c = '_' || c = '-'))).take 100⟩
  let base_name := strftimeCompact received ++ "_" ++ safe_subj
  let body := msg.body.getD ""
  -- Build message id
  let mid1 : Option String :=
    if truthyStr msg.internetMessageID then msg.internetMessageID
    else msg.entryID
  let message_id : String :=
    if truthyStr mid1 then mid1.getD ""
    else
      let body_snip : String := ⟨body.data.take 500⟩
      let sender := pyOrStr msg.senderEmailAddress (pyOrStr msg.senderName "")
      let key := subj ++ "|" ++ sender ++ "|" ++ pyStrDateTime received ++
        "|" ++ body_snip
      sha256hex key
  -- Parse header Date from raw headers if available
  let parsed_header_date : Option PyDateTime :=
    match msg.rawHeaders with
    | none => none
    | some rh =>
      if rh.data.isEmpty then none
      else _parse_header_date_from_raw_headers loc parsedate rh
  let date_source :=
    if parsed_header_date.isSome then "header_date" else "received_time"
  let chosen_date := parsed_header_date.getD received
  -- Save attachments — whitelist
  let saved_att := msg.attachments.filterMap (fun att? =>
    match att? with
    | none => none
    | some att_name =>
      if att_name.isEmpty then none
      else
        let ext := (splitext att_name.data).2
        if allowed_exts.contains ⟨ext.map Char.toLower⟩ then
          some (base_name ++ "_" ++ att_name)
        else none)
  { base_name := base_name, received := received, message_id := message_id,
    chosen_date := chosen_date, date_source := date_source,
    saved_att := saved_att }

/-! ### The store model and `restrict_items_range` -/

/-- An Outlook `Items` collection: its item list plus whether reading its
`Count` property succeeds (the source reads `Count` inside a `try` after the
DASL restriction and returns the collection when the read raises). -/
structure ItemsColl where
  msgs : List RawMsg
  countReadable : Bool
deriving Repr, DecidableEq

/-- The store behaviour observed by `restrict_items_range`: the outcome of
the DASL `Restrict` call, of the legacy-format (MAPI) `Restrict` call
(`none` = the call raises) and the unfiltered `Items` collection.  The
`IncludeRecurrences` / `Sort` side effects and the `folder.Items is None`
guard carry no window logic and are not modelled. -/
structure Store where
  daslResult : Option ItemsColl
  mapiResult : Option ItemsColl
  items : ItemsColl
deriving Repr, DecidableEq

/-- Function `restrict_items_range` from the source: try the DASL restriction; on
success return it when its `Count` is positive (or unreadable), otherwise
fall through to the MAPI-format restriction; when that also raises, return
the unfiltered collection. -/
def restrict_items_range (st : Store) : ItemsColl :=
  let fallback :=
    match st.mapiResult with
    | some filtered => filtered
    | none => st.items
  match st.daslResult with
  | some filtered =>
    if !filtered.countReadable then filtered
    else if filtered.msgs.length > 0 then filtered
    else fallback
  | none => fallback

/-! ### The ingestion loop of `main` -/

/-- One entry of the `saved_emails` list built in `main`. -/
structure SavedRec where
  txt : String
  attachments : List String
  received : Option PyDateTime
  message_id : Option String
  date_source : String
  raw_received : Option PyDateTime
deriving Repr, DecidableEq

/-- One iteration of the ingestion loop of `main` (lines 558-583): read and
localize `ReceivedTime`, apply the client-side window check against
`[since, until]`, and normalize through `save_mail_and_attachments`;
`none` models `continue` (the item yields no record). -/
def processItem (loc : Int) (now_clock : PyDateTime)
    (parsedate : String → Option PyDateTime)
    (since_dt until_dt : PyDateTime) (msg : RawMsg) : Option SavedRec :=
  match to_naive_local loc msg.receivedTime with
  | none => none
  | some raw_received =>
    if raw_received.sec < since_dt.sec || raw_received.sec > until_dt.sec then
      none
    else
      let r := save_mail_and_attachments loc now_clock parsedate msg
      some { txt := r.base_name ++ ".txt", attachments := r.saved_att,
             received := some r.chosen_date, message_id := some r.message_id,
             date_source := r.date_source, raw_received := some r.received }

/-- The whole ingestion loop: every item of the collection handed back by
the range resolver goes through `processItem`. -/
def ingestLoop (loc : Int) (now_clock : PyDateTime)
    (parsedate : String → Option PyDateTime)
    (since_dt until_dt : PyDateTime) (msgs : List RawMsg) : List SavedRec :=
  msgs.filterMap (processItem loc now_clock parsedate since_dt until_dt)

/-- The window membership test implicit in lines 564-569 of `main`: a
localized receipt time exists and lies in the closed interval. -/
def inWindowB (loc : Int) (since_dt until_dt : PyDateTime) (msg : RawMsg) :
    Bool :=
  match to_naive_local loc msg.receivedTime with
  | none => false
  | some rr => decide (since_dt.sec ≤ rr.sec) && decide (rr.sec ≤ until_dt.sec)

/-! ### Deduplication, ordering and period bounds -/

/-- The dedupe-by-`message_id` loop of `main` (lines 589-602), with the set
of already-seen ids (`unique`) made explicit: a record with a falsy id is
always kept, a record whose id was seen before is dropped, otherwise the
record is kept and its id remembered. -/
def dedupeGo : List String → List SavedRec → List SavedRec
  | _, [] => []
  | seen, r :: rest =>
    match truthyStr r.message_id with
    | false => r :: dedupeGo seen rest
    | true =>
      match seen.contains (r.message_id.getD "") with
      | true => dedupeGo seen rest
      | false => r :: dedupeGo (r.message_id.getD "" :: seen) rest

/-- Deduplication as run by `main` (empty seen set at the start). -/
def dedupeByMessageId (l : List SavedRec) : List SavedRec := dedupeGo [] l

/-- The sort key of `saved_emails.sort(key=lambda r: r.get(received) or
since)`: a missing timestamp sorts as the `since` bound. -/
def sortKey (since_dt : PyDateTime) (r : SavedRec) : Int :=
  (r.received.getD since_dt).sec

/-- The ordering pass of `main` (line 605).  Python `list.sort` is a stable
ascending sort; every stable sort over the induced total preorder produces
the same list, so `List.mergeSort` is an exact model of it. -/
def sortByReceived (since_dt : PyDateTime) (l : List SavedRec) :
    List SavedRec :=
  l.mergeSort (fun a b => decide (sortKey since_dt a ≤ sortKey since_dt b))

/-- Python `min` over a nonempty list (first minimum wins). -/
def pyMinD (d : PyDateTime) (ds : List PyDateTime) : PyDateTime :=
  ds.foldl (fun a b => if b.sec < a.sec then b else a) d

/-- Python `max` over a nonempty list (first maximum wins). -/
def pyMaxD (d : PyDateTime) (ds : List PyDateTime) : PyDateTime :=
  ds.foldl (fun a b => if b.sec > a.sec then b else a) d

/-- The period-bound computation of `main` (lines 607-616): collect the
truthy `received` values; if none exist the bounds are `since` and `until`
themselves, otherwise `max(min(dates), since)` and `min(max(dates), until)`
(two-argument Python `max`/`min` keep their first argument on ties). -/
def dateRangeBounds (since_dt until_dt : PyDateTime) (l : List SavedRec) :
    PyDateTime × PyDateTime :=
  let dates := l.filterMap (fun r => r.received)
  match dates with
  | [] => (since_dt, until_dt)
  | d :: ds =>
    let mn := pyMinD d ds
    let mx := pyMaxD d ds
    (if since_dt.sec > mn.sec then since_dt else mn,
     if until_dt.sec < mx.sec then until_dt else mx)

/-! ### A model of `json.loads` validity -/

/-- JSON whitespace. -/
def jsonWs (c : Char) : Bool := c = ' ' || c = '\t' || c = '\n' || c = '\r'

def skipWs (cs : List Char) : List Char := cs.dropWhile jsonWs

def isHexDigitB (c : Char) : Bool :=
  c.isDigit || ('a' ≤ c && c ≤ 'f') || ('A' ≤ c && c ≤ 'F')

/-- Consume a JSON string body after the opening quote (strict mode: raw
control characters are rejected, escapes are the JSON ones). -/
def jstring : List Char → Option (List Char)
  | [] => none
  | '"' :: rest => some rest
  | '\\' :: 'u' :: a :: b :: c :: d :: rest =>
    if isHexDigitB a && isHexDigitB b && isHexDigitB c && isHexDigitB d then
      jstring rest
    else none
  | '\\' :: c :: rest =>
    if c = '"' || c = '\\' || c = '/' || c = 'b' || c = 'f' || c = 'n' ||
        c = 'r' || c = 't' then
      jstring rest
    else none
  | c :: rest => if c.toNat < 32 then none else jstring rest

def expectLit (lit cs : List Char) : Option (List Char) :=
  if lit.isPrefixOf cs then some (cs.drop lit.length) else none

/-- Integer part of a JSON number: `0` or a nonzero digit followed by
digits. -/
def jint : List Char → Option (List Char)
  | '0' :: rest => some rest
  | c :: rest =>
    if '1' ≤ c && c ≤ '9' then some (rest.dropWhile Char.isDigit) else none
  | [] => none

/-- Optional fraction part. -/
def jfrac (cs : List Char) : Option (List Char) :=
  match cs with
  | '.' :: rest =>
    if (rest.takeWhile Char.isDigit).isEmpty then none
    else some (rest.dropWhile Char.isDigit)
  | _ => some cs

/-- Optional exponent part. -/
def jexp (cs : List Char) : Option (List Char) :=
  match cs with
  | c :: rest =>
    if c = 'e' || c = 'E' then
      let rest2 := match rest with
        | s :: r2 => if s = '+' || s = '-' then r2 else s :: r2
        | [] => rest
      if (rest2.takeWhile Char.isDigit).isEmpty then none
      else some (rest2.dropWhile Char.isDigit)
    else some (c :: rest)
  | [] => some []

def jnumber (cs : List Char) : Option (List Char) :=
  let body := fun ds =>
    match jint ds with
    | none => none
    | some r1 =>
      match jfrac r1 with
      | none => none
      | some r2 => jexp r2
  match cs with
  | '-' :: rest => body rest
  | _ => body cs

/-- Parser modes: one JSON value, the members of an object after `\x7b`, the
elements of an array after `[`. -/
inductive JMode
  | value
  | members
  | elements
deriving Repr

/-- The recursive JSON acceptor, structurally recursive on a fuel argument
so that the kernel can evaluate it (each nesting level consumes at least one
character, so `fuel = length + 1` always suffices). -/
def jrun : Nat → JMode → List Char → Option (List Char)
  | 0, _, _ => none
  | fuel + 1, JMode.value, cs =>
    match cs with
    | '"' :: rest => jstring rest
    | '{' :: rest =>
      match skipWs rest with
      | '}' :: r2 => some r2
      | r2 => jrun fuel JMode.members r2
    | '[' :: rest =>
      match skipWs rest with
      | ']' :: r2 => some r2
      | r2 => jrun fuel JMode.elements r2
    | 't' :: rest => expectLit "rue".data rest
    | 'f' :: rest => expectLit "alse".data rest
    | 'n' :: rest => expectLit "ull".data rest
    | 'N' :: rest => expectLit "aN".data rest
    | 'I' :: rest => expectLit "nfinity".data rest
    | '-' :: 'I' :: rest => expectLit "nfinity".data rest
    | cs2 => jnumber cs2
  | fuel + 1, JMode.members, cs =>
    match cs with
    | '"' :: rest =>
      match jstring rest with
      | none => none
      | some r2 =>
        match skipWs r2 with
        | ':' :: r3 =>
          match jrun fuel JMode.value (skipWs r3) with
          | none => none
          | some r4 =>
            match skipWs r4 with
            | ',' :: r5 =>
              match skipWs r5 with
              | r6 => jrun fuel JMode.members r6
            | '}' :: r5 => some r5
            | _ => none
        | _ => none
    | _ => none
  | fuel + 1, JMode.elements, cs =>
    match jrun fuel JMode.value cs with
    | none => none
    | some r2 =>
      match skipWs r2 with
      | ',' :: r3 => jrun fuel JMode.elements (skipWs r3)
      | ']' :: r3 => some r3
      | _ => none

/-- Does `json.loads` accept the text?  A model of the validity probes of
the source: the standard decoder (objects, arrays, strings with escapes,
numbers, literals including the Python-accepted `NaN`/`Infinity`), with
surrounding whitespace permitted. -/
def jsonLoadsOk (s : String) : Bool :=
  let cs := skipWs s.data
  match jrun (cs.length + 1) JMode.value cs with
  | some rest => (skipWs rest).isEmpty
  | none => false

/-! ### `_extract_first_json_block` and the extractor call site -/

/-- The greedy DOTALL regex search of the source (pattern: open brace, any
characters, close brace): it matches exactly when some close brace follows
the first open brace, and the leftmost-greedy match runs from the first open
brace to the last close brace of the whole text. -/
def regexBraceBlock (text : String) : Option String :=
  let cs := text.data
  match cs.findIdx? (fun c => c = '{'), rfindIdx (fun c => c = '}') cs with
  | some s, some e =>
    if s < e then some ⟨(cs.take (e + 1)).drop s⟩ else none
  | _, _ => none

/-- Function `_extract_first_json_block` from the source: try the slice between the
first open brace and the last close brace when it parses as JSON; otherwise
run the regex scan, whose match is returned by both branches of the final
`try`/`except` — i.e. even when it is not valid JSON; only with no match at
all is the input returned unchanged. -/
def _extract_first_json_block (text : String) : String :=
  let cs := text.data
  let viaSlice : Option String :=
    match cs.findIdx? (fun c => c = '{'), rfindIdx (fun c => c = '}') cs with
    | some s, some e =>
      if e > s then
        let candidate : String := ⟨(cs.take (e + 1)).drop s⟩
        if jsonLoadsOk candidate then some candidate else none
      else none
    | _, _ => none
  match viaSlice with
  | some c => c
  | none =>
    match regexBraceBlock text with
    | some m => m
    | none => text

/-- The response post-processing of `call_openai_extract_updates` (lines
411-417): strip the response; keep it when it already parses as JSON,
otherwise hand it to `_extract_first_json_block`. -/
def extractResponseJson (content : String) : String :=
  let json_text := pyStrip content
  if jsonLoadsOk json_text then json_text
  else _extract_first_json_block json_text

/-! ## Concrete fixtures used by witnesses and counterexamples -/

/-- Naive local datetime 2025-08-05 00:00:00. -/
def dtAug05 : PyDateTime := { sec := 1754352000, off := none }

/-- Naive local datetime 2025-08-15 00:00:00. -/
def dtAug15 : PyDateTime := { sec := 1755216000, off := none }

/-- A concrete raw message carrying a parsable RFC-2822 `Date:` header and a
mixed attachment list. -/
def msgHeaderDate : RawMsg :=
  { subject := some "Policy Update", senderName := some "Alice",
    senderEmailAddress := some "alice@example.com",
    body := some "body text", receivedTime := some dtAug05,
    internetMessageID := some "<id-1@example.com>", entryID := none,
    rawHeaders :=
      some "Received: x\r\nDate: Fri, 15 Aug 2025 00:00:00 +0000\r\nX: y",
    attachments := [some "report.PDF", some "report.pdf", some "report.exe",
      none] }

/-- A concrete raw message with no receipt time, no raw headers, no provider
ids and no attachments. -/
def msgBare : RawMsg :=
  { subject := some "s", senderName := none,
    senderEmailAddress := some "e", body := some "b",
    receivedTime := none, internetMessageID := none, entryID := none,
    rawHeaders := none, attachments := [] }

/-! ## Claim theorems -/

/-- C1: for every raw message with a store receipt time, if a `Date:` header
can be parsed out of its raw header block then the returned `chosen_date`
equals that parsed value (already converted to naive local time by the
parser) and `date_source` is `header_date`; otherwise `chosen_date` is the
receipt time converted to naive local time and `date_source` is
`received_time`. -/
theorem save_header_date_overrides_received
    (loc : Int) (now : PyDateTime) (pd : String → Option PyDateTime)
    (msg : RawMsg) (rt : PyDateTime) (hrt : msg.receivedTime = some rt) :
    (∀ rh d, msg.rawHeaders = some rh →
      _parse_header_date_from_raw_headers loc pd rh = some d →
      (save_mail_and_attachments loc now pd msg).chosen_date = d ∧
      (save_mail_and_attachments loc now pd msg).date_source =
        "header_date") ∧
    ((∀ rh, msg.rawHeaders = some rh →
      _parse_header_date_from_raw_headers loc pd rh = none) →
      (save_mail_and_attachments loc now pd msg).chosen_date =
        to_naive_local1 loc rt ∧
      (save_mail_and_attachments loc now pd msg).date_source =
        "received_time") := by
  constructor
  · intro rh d hrh hparse
    have hne : rh.data.isEmpty = false := by
      cases hh : rh.data.isEmpty
      · rfl
      · simp [_parse_header_date_from_raw_headers, hh] at hparse
    simp [save_mail_and_attachments, hrh, hrt, hne, hparse]
  · intro hnone
    cases hrh : msg.rawHeaders with
    | none => simp [save_mail_and_attachments, hrh, hrt]
    | some rh =>
      simp [save_mail_and_attachments, hrh, hrt, hnone rh hrh, ite_self]

/-- C1 witness: the policy applied to a concrete message whose header date
(2025-08-15 UTC) differs from its receipt time (2025-08-05 local). -/
theorem save_header_date_overrides_received_witness :
    (save_mail_and_attachments 0 dtAug05 parsedateModel
        msgHeaderDate).chosen_date = dtAug15 ∧
    (save_mail_and_attachments 0 dtAug05 parsedateModel
        msgHeaderDate).date_source = "header_date" :=
  (save_header_date_overrides_received 0 dtAug05 parsedateModel msgHeaderDate
      dtAug05 rfl).1
    "Received: x\r\nDate: Fri, 15 Aug 2025 00:00:00 +0000\r\nX: y" dtAug15
    rfl (by decide)

/-- The attachment output of the normalizer, as a filter over the attachment
list: kept exactly when the name is usable and its lowercased extension is
whitelisted. -/
theorem save_saved_att (loc : Int) (now : PyDateTime)
    (pd : String → Option PyDateTime) (msg : RawMsg) :
    (save_mail_and_attachments loc now pd msg).saved_att =
      msg.attachments.filterMap (fun att? =>
        match att? with
        | none => none
        | some att_name =>
          if att_name.isEmpty then none
          else if allowed_exts.contains
              ⟨((splitext att_name.data).2).map Char.toLower⟩ then
            some ((save_mail_and_attachments loc now pd msg).base_name ++
              "_" ++ att_name)
          else none) := rfl

/-- C9: an attachment is persisted exactly when its file-name extension,
compared case-insensitively, is on the fixed whitelist: every saved path is
the message base name plus the name of a whitelisted attachment, and every
attachment with a usable name and a whitelisted extension is saved; a
skipped attachment never prevents the record from being produced (the
normalizer is a total function). -/
theorem attachment_whitelist_iff (loc : Int) (now : PyDateTime)
    (pd : String → Option PyDateTime) (msg : RawMsg) :
    (∀ s ∈ (save_mail_and_attachments loc now pd msg).saved_att,
      ∃ name, some name ∈ msg.attachments ∧ name.isEmpty = false ∧
        allowed_exts.contains
          ⟨((splitext name.data).2).map Char.toLower⟩ = true ∧
        s = (save_mail_and_attachments loc now pd msg).base_name ++ "_" ++
          name) ∧
    (∀ name, some name ∈ msg.attachments → name.isEmpty = false →
      allowed_exts.contains
        ⟨((splitext name.data).2).map Char.toLower⟩ = true →
      (save_mail_and_attachments loc now pd msg).base_name ++ "_" ++ name ∈
        (save_mail_and_attachments loc now pd msg).saved_att) := by
  have heq := save_saved_att loc now pd msg
  set r := save_mail_and_attachments loc now pd msg with hr
  rw [heq]
  constructor
  · intro s hs
    rw [List.mem_filterMap] at hs
    obtain ⟨att?, hmem, hf⟩ := hs
    cases att? with
    | none => simp at hf
    | some name =>
      cases h1 : name.isEmpty with
      | true => simp [h1] at hf
      | false =>
        cases h2 : allowed_exts.contains
            ⟨((splitext name.data).2).map Char.toLower⟩ with
        | false =>
          simp [h1, h2] at hf
          exact absurd hf.1 (by simpa using h2)
        | true =>
          simp [h1, h2] at hf
          exact ⟨name, hmem, h1, h2, hf.2.symm⟩
  · intro name hmem hne hext
    rw [List.mem_filterMap]
    refine ⟨some name, hmem, ?_⟩
    have hmem2 :
        (⟨((splitext name.data).2).map Char.toLower⟩ : String) ∈
          allowed_exts := by simpa using hext
    simp [hne, hmem2]

/-- C9 witness: on the concrete message, `report.PDF` and `report.pdf` are
both saved, `report.exe` is not, and the record is still produced in full. -/
theorem attachment_whitelist_iff_witness :
    (save_mail_and_attachments 0 dtAug05 parsedateModel
        msgHeaderDate).base_name ++ "_" ++ "report.PDF" ∈
      (save_mail_and_attachments 0 dtAug05 parsedateModel
        msgHeaderDate).saved_att ∧
    (save_mail_and_attachments 0 dtAug05 parsedateModel
        msgHeaderDate).base_name ++ "_" ++ "report.pdf" ∈
      (save_mail_and_attachments 0 dtAug05 parsedateModel
        msgHeaderDate).saved_att ∧
    (∀ s ∈ (save_mail_and_attachments 0 dtAug05 parsedateModel
        msgHeaderDate).saved_att,
      ∃ name, some name ∈ msgHeaderDate.attachments ∧
        name.isEmpty = false ∧
        allowed_exts.contains
          ⟨((splitext name.data).2).map Char.toLower⟩ = true ∧
        s = (save_mail_and_attachments 0 dtAug05 parsedateModel
          msgHeaderDate).base_name ++ "_" ++ name) := by
  have h := attachment_whitelist_iff 0 dtAug05 parsedateModel msgHeaderDate
  refine ⟨?_, ?_, h.1⟩
  · exact h.2 "report.PDF" (by decide) (by decide) (by decide)
  · exact h.2 "report.pdf" (by decide) (by decide) (by decide)

/-- C10: `date_source` is always one of exactly `header_date` and
`received_time` — the `synthetic` member of the spec enum is never
produced; a message whose store receipt time is absent gets the current
wall-clock time (localized) as its receipt timestamp, and in the absence of
a parsable header date it is still tagged `received_time`. -/
theorem date_source_two_values (loc : Int) (now : PyDateTime)
    (pd : String → Option PyDateTime) (msg : RawMsg) :
    ((save_mail_and_attachments loc now pd msg).date_source =
        "header_date" ∨
      (save_mail_and_attachments loc now pd msg).date_source =
        "received_time") ∧
    (msg.receivedTime = none →
      (save_mail_and_attachments loc now pd msg).received =
        to_naive_local1 loc now ∧
      ((∀ rh, msg.rawHeaders = some rh →
          _parse_header_date_from_raw_headers loc pd rh = none) →
        (save_mail_and_attachments loc now pd msg).date_source =
          "received_time")) := by
  constructor
  · simp only [save_mail_and_attachments]
    cases msg.rawHeaders with
    | none => simp
    | some rh =>
      by_cases h1 : rh.data.isEmpty
      · simp [h1]
      · cases hp : _parse_header_date_from_raw_headers loc pd rh <;>
          simp [h1, hp]
  · intro hrt
    refine ⟨by simp [save_mail_and_attachments, hrt], ?_⟩
    intro hnone
    cases hrh : msg.rawHeaders with
    | none => simp [save_mail_and_attachments, hrh]
    | some rh =>
      simp [save_mail_and_attachments, hrh, hnone rh hrh, ite_self]

/-- C10 witness: a concrete message with no receipt time and no headers is
stamped with the (localized) wall clock and tagged `received_time`. -/
theorem date_source_two_values_witness :
    (save_mail_and_attachments 3600 dtAug05 parsedateModel msgBare).received =
      to_naive_local1 3600 dtAug05 ∧
    (save_mail_and_attachments 3600 dtAug05 parsedateModel
        msgBare).date_source = "received_time" := by
  have h := (date_source_two_values 3600 dtAug05 parsedateModel msgBare).2 rfl
  exact ⟨h.1, h.2 (by intro rh hrh; exact Option.noConfusion hrh)⟩

/-- Auxiliary: a `filterMap` ignores the elements on which the function is
`none`, so filtering them away first changes nothing. -/
theorem filterMap_eq_filterMap_filter {α β : Type} (f : α → Option β)
    (p : α → Bool) (l : List α) (h : ∀ a ∈ l, p a = false → f a = none) :
    l.filterMap f = (l.filter p).filterMap f := by
  induction l with
  | nil => rfl
  | cons x xs ih =>
    have hx := h x (List.mem_cons_self x xs)
    have ih2 := ih (fun a ha hpa => h a (List.mem_cons_of_mem x ha) hpa)
    cases hp : p x with
    | false => simp [List.filter_cons, hp, List.filterMap_cons, hx hp, ih2]
    | true => simp [List.filter_cons, hp, List.filterMap_cons, ih2]

/-- C2: every item handed back by the range resolver — whichever of the
three restriction paths produced the returned collection — is subject to
the client-side window check of `main`: an item whose localized receipt
time falls strictly outside the closed interval `[since, until]` yields no
normalized record, an item with a receipt time inside the interval is not
discarded by this filter, and the loop output is exactly the per-item
normalization of the in-window items. -/
theorem client_side_window_filter (loc : Int) (now_clock : PyDateTime)
    (pd : String → Option PyDateTime) (since_dt until_dt : PyDateTime)
    (st : Store) :
    (∀ msg ∈ (restrict_items_range st).msgs, ∀ rr,
      to_naive_local loc msg.receivedTime = some rr →
      (rr.sec < since_dt.sec ∨ rr.sec > until_dt.sec) →
      processItem loc now_clock pd since_dt until_dt msg = none) ∧
    (∀ msg ∈ (restrict_items_range st).msgs, ∀ rr,
      to_naive_local loc msg.receivedTime = some rr →
      since_dt.sec ≤ rr.sec → rr.sec ≤ until_dt.sec →
      (processItem loc now_clock pd since_dt until_dt msg).isSome = true) ∧
    ingestLoop loc now_clock pd since_dt until_dt
        (restrict_items_range st).msgs =
      ingestLoop loc now_clock pd since_dt until_dt
        (((restrict_items_range st).msgs).filter
          (inWindowB loc since_dt until_dt)) := by
  refine ⟨?_, ?_, ?_⟩
  · intro msg _ rr hrr hout
    have : (rr.sec < since_dt.sec || rr.sec > until_dt.sec) = true := by
      rcases hout with h | h <;> simp [h]
    simp [processItem, hrr, this]
  · intro msg _ rr hrr h1 h2
    have hc : (rr.sec < since_dt.sec || rr.sec > until_dt.sec) = false := by
      have h1' : ¬ rr.sec < since_dt.sec := not_lt.mpr h1
      have h2' : ¬ rr.sec > until_dt.sec := not_lt.mpr h2
      simp [h1', h2']
    simp [processItem, hrr, hc]
  · apply filterMap_eq_filterMap_filter
    intro msg _ hp
    rw [inWindowB] at hp
    cases hrr : to_naive_local loc msg.receivedTime with
    | none => simp [processItem, hrr]
    | some rr =>
      rw [hrr] at hp
      have : rr.sec < since_dt.sec ∨ rr.sec > until_dt.sec := by
        by_contra hcon
        push_neg at hcon
        simp [hcon.1, hcon.2] at hp
      have hb : (rr.sec < since_dt.sec || rr.sec > until_dt.sec) = true := by
        rcases this with h | h <;> simp [h]
      simp [processItem, hrr, hb]

/-- A store on which every server-side restriction raises, so the resolver
hands back the unfiltered items: one in-window message and one out-of-window
message. -/
def storeUnfiltered : Store :=
  { daslResult := none, mapiResult := none,
    items := { msgs := [msgHeaderDate,
      { msgBare with receivedTime := some dtAug15 }], countReadable := true } }

/-- C2 witness: on the unfiltered-fallback store with the window
`[2025-08-01, 2025-08-07]`, the message received 2025-08-05 is kept and the
message received 2025-08-15 yields no record. -/
theorem client_side_window_filter_witness :
    processItem 0 dtAug05 parsedateModel ⟨1753999200, none⟩
        ⟨1754604000, none⟩ { msgBare with receivedTime := some dtAug15 } =
      none ∧
    (processItem 0 dtAug05 parsedateModel ⟨1753999200, none⟩
        ⟨1754604000, none⟩ msgHeaderDate).isSome = true := by
  have h := client_side_window_filter 0 dtAug05 parsedateModel
    ⟨1753999200, none⟩ ⟨1754604000, none⟩ storeUnfiltered
  constructor
  · exact h.1 { msgBare with receivedTime := some dtAug15 } (by decide)
      dtAug15 rfl (by right; decide)
  · exact h.2.1 msgHeaderDate (by decide) dtAug05 rfl (by decide) (by decide)

/-- C4 counterexample: a store whose rich (DASL) restriction succeeds
without error but reports zero items, while the legacy (MAPI) restriction
holds one message: the resolver returns the legacy result, so the legacy
step did run after an error-free rich step, and the rich result is not what
is returned. -/
def storeDaslEmpty : Store :=
  { daslResult := some { msgs := [], countReadable := true },
    mapiResult := some { msgs := [msgBare], countReadable := true },
    items := { msgs := [], countReadable := true } }

/-- C4 counterexample theorem: the rich restriction of `storeDaslEmpty`
succeeds without error (it returns a collection), yet the resolver's output
is the legacy restriction's collection, not the rich one. -/
theorem restrict_zero_count_falls_through :
    storeDaslEmpty.daslResult =
      some { msgs := [], countReadable := true } ∧
    restrict_items_range storeDaslEmpty =
      { msgs := [msgBare], countReadable := true } ∧
    restrict_items_range storeDaslEmpty ≠
      { msgs := [], countReadable := true } := by
  refine ⟨rfl, rfl, by decide⟩

/-- C4 (amended): the legacy filter runs exactly when the rich restriction
raises or succeeds with a readable zero `Count`; when the rich restriction
succeeds with a positive `Count`, or its `Count` cannot be read, its result
is returned and no later fallback step runs. -/
theorem restrict_fallback_characterization (st : Store) :
    (∀ f, st.daslResult = some f →
      (f.countReadable = false ∨ f.msgs ≠ []) →
      restrict_items_range st = f) ∧
    (∀ f, st.daslResult = some f → f.countReadable = true → f.msgs = [] →
      restrict_items_range st =
        (match st.mapiResult with
          | some g => g
          | none => st.items)) ∧
    (st.daslResult = none →
      restrict_items_range st =
        (match st.mapiResult with
          | some g => g
          | none => st.items)) := by
  refine ⟨?_, ?_, ?_⟩
  · intro f hf hcase
    rcases hcase with h | h
    · simp [restrict_items_range, hf, h]
    · have : 0 < f.msgs.length := List.length_pos.mpr h
      cases hc : f.countReadable <;>
        simp [restrict_items_range, hf, hc, this]
  · intro f hf hc hm
    simp [restrict_items_range, hf, hc, hm]
  · intro hf
    simp [restrict_items_range, hf]

/-- C4 amended-claim witness: on `storeDaslEmpty` the rich step succeeded
with zero count, and the characterization yields the legacy collection; on
a store with a non-empty rich result, the rich collection itself. -/
theorem restrict_fallback_characterization_witness :
    restrict_items_range storeDaslEmpty =
      { msgs := [msgBare], countReadable := true } ∧
    restrict_items_range
        { daslResult := some { msgs := [msgBare], countReadable := true },
          mapiResult := none,
          items := { msgs := [], countReadable := true } } =
      { msgs := [msgBare], countReadable := true } := by
  constructor
  · exact (restrict_fallback_characterization storeDaslEmpty).2.1
      { msgs := [], countReadable := true } rfl rfl rfl
  · exact (restrict_fallback_characterization _).1
      { msgs := [msgBare], countReadable := true } rfl
      (Or.inr (by decide))

/-- A falsy `message_id` can never equal `some mid` for a nonempty `mid`. -/
theorem not_truthy_ne_some (o : Option String) (mid : String)
    (hmid : ¬ mid = "") (h : truthyStr o = false) : ¬ o = some mid := by
  cases o with
  | none => simp
  | some s =>
    have hempty : s.isEmpty = true := by
      cases he : s.isEmpty
      · simp [truthyStr, he] at h
      · rfl
    have hs : s = "" := (String.isEmpty_iff s).mp hempty
    subst hs
    intro hc
    exact hmid (Option.some.inj hc).symm

/-- A truthy optional string is `some` of its default-extracted value. -/
theorem truthy_eq_some (o : Option String) (h : truthyStr o = true) :
    o = some (o.getD "") := by
  cases o with
  | none => simp [truthyStr] at h
  | some s => rfl

/-- Deduplication only removes records: its output is a sublist of its
input (so input order is preserved). -/
theorem dedupeGo_sublist (l : List SavedRec) :
    ∀ seen : List String, List.Sublist (dedupeGo seen l) l := by
  induction l with
  | nil => intro seen; simp [dedupeGo]
  | cons r rest ih =>
    intro seen
    rw [dedupeGo]
    split
    · exact (ih seen).cons₂ r
    · split
      · exact (ih seen).cons r
      · exact (ih _).cons₂ r

/-- Records without a derivable identity are never removed. -/
theorem dedupeGo_keeps_unidentified (l : List SavedRec) :
    ∀ seen : List String,
    (dedupeGo seen l).filter (fun r => !truthyStr r.message_id) =
      l.filter (fun r => !truthyStr r.message_id) := by
  induction l with
  | nil => intro seen; rfl
  | cons r rest ih =>
    intro seen
    rw [dedupeGo]
    split
    · rename_i h
      simp [List.filter_cons, h, ih seen]
    · rename_i h
      split
      · simp [List.filter_cons, h, ih seen]
      · simp [List.filter_cons, h, ih]

/-- The survivors with a given nonempty identity are exactly the first input
record with that identity, unless it was already seen. -/
theorem dedupeGo_filter_id (mid : String) (hmid : ¬ mid = "")
    (l : List SavedRec) :
    ∀ seen : List String,
    (dedupeGo seen l).filter (fun r => decide (r.message_id = some mid)) =
      if mid ∈ seen then []
      else (l.find? (fun r => decide (r.message_id = some mid))).toList := by
  induction l with
  | nil => intro seen; simp [dedupeGo]
  | cons r rest ih =>
    intro seen
    rw [dedupeGo]
    split
    · rename_i h
      have hne : ¬ r.message_id = some mid := not_truthy_ne_some _ _ hmid h
      rw [List.filter_cons_of_neg (by simp [hne]),
        List.find?_cons_of_neg _ (by simp [hne])]
      exact ih seen
    · rename_i h
      have hr : r.message_id = some (r.message_id.getD "") :=
        truthy_eq_some _ h
      split
      · rename_i hseen
        have hmem : (r.message_id.getD "") ∈ seen := by simpa using hseen
        rw [ih seen]
        by_cases hm : (r.message_id.getD "") = mid
        · rw [if_pos (hm ▸ hmem), if_pos (hm ▸ hmem)]
        · have hne : ¬ r.message_id = some mid := by
            rw [hr]
            intro hc
            exact hm (Option.some.inj hc)
          rw [List.find?_cons_of_neg _ (by simp [hne])]
      · rename_i hseen
        have hmem : ¬ (r.message_id.getD "") ∈ seen := by simpa using hseen
        by_cases hm : (r.message_id.getD "") = mid
        · have hrm : r.message_id = some mid := by rw [hr, hm]
          have hnm : ¬ mid ∈ seen := hm ▸ hmem
          rw [List.filter_cons_of_pos (by simp [hrm]), ih,
            List.find?_cons_of_pos _ (by simp [hrm]), if_neg hnm,
            if_pos (show mid ∈ (r.message_id.getD "") :: seen by
              rw [hm]; exact List.mem_cons_self mid seen)]
          rfl
        · have hne : ¬ r.message_id = some mid := by
            rw [hr]
            intro hc
            exact hm (Option.some.inj hc)
          rw [List.filter_cons_of_neg (by simp [hne]), ih,
            List.find?_cons_of_neg _ (by simp [hne])]
          by_cases hms : mid ∈ seen
          · rw [if_pos (List.mem_cons_of_mem _ hms), if_pos hms]
          · rw [if_neg (fun hx => by
                rcases List.mem_cons.mp hx with h1 | h1
                · exact hm h1.symm
                · exact hms h1),
              if_neg hms]

/-- C5: deduplication keeps the output as a sublist of the input (first-seen
order preserved), always keeps every record with no derivable identity
(`None` or empty `message_id`), and for every nonempty identity the
survivors are exactly the first-seen input record with that identity — all
later duplicates are dropped. -/
theorem dedupe_first_seen_per_identity (l : List SavedRec) :
    List.Sublist (dedupeByMessageId l) l ∧
    (dedupeByMessageId l).filter (fun r => !truthyStr r.message_id) =
      l.filter (fun r => !truthyStr r.message_id) ∧
    (∀ mid : String, ¬ mid = "" →
      (dedupeByMessageId l).filter
          (fun r => decide (r.message_id = some mid)) =
        (l.find? (fun r => decide (r.message_id = some mid))).toList) := by
  refine ⟨dedupeGo_sublist l [], dedupeGo_keeps_unidentified l [], ?_⟩
  intro mid hmid
  rw [dedupeByMessageId, dedupeGo_filter_id mid hmid l []]
  simp

/-- C5 witness fixtures: two records with the same identity `A` and
different timestamps (2025-08-10 and 2025-08-12). -/
def recA1 : SavedRec :=
  { txt := "a1.txt", attachments := [],
    received := some { sec := 1754784000, off := none },
    message_id := some "A", date_source := "received_time",
    raw_received := some { sec := 1754784000, off := none } }

def recA2 : SavedRec :=
  { recA1 with
    txt := "a2.txt",
    received := some { sec := 1754956800, off := none } }

/-- C5 witness (end-to-end scenario 1): of the two records with identity
`A`, exactly the earliest-seen one survives deduplication. -/
theorem dedupe_first_seen_per_identity_witness :
    (dedupeByMessageId [recA1, recA2]).filter
        (fun r => decide (r.message_id = some "A")) = [recA1] :=
  ((dedupe_first_seen_per_identity [recA1, recA2]).2.2 "A"
      (by decide)).trans (by decide)

/-- C6: the aggregator ordering is a stable ascending sort on the canonical
timestamp (missing timestamps sort as the `since` bound): the output is
pairwise non-decreasing in the effective key, is a permutation of the
input, and any two records in key order keep their relative order — in
particular ties preserve the input order. -/
theorem sort_nondecreasing_stable (since_dt : PyDateTime)
    (l : List SavedRec) :
    (sortByReceived since_dt l).Pairwise
      (fun a b => sortKey since_dt a ≤ sortKey since_dt b) ∧
    List.Perm (sortByReceived since_dt l) l ∧
    (∀ a b, sortKey since_dt a ≤ sortKey since_dt b →
      List.Sublist [a, b] l →
      List.Sublist [a, b] (sortByReceived since_dt l)) := by
  have htrans : ∀ (a b c : SavedRec),
      decide (sortKey since_dt a ≤ sortKey since_dt b) = true →
      decide (sortKey since_dt b ≤ sortKey since_dt c) = true →
      decide (sortKey since_dt a ≤ sortKey since_dt c) = true := by
    intro a b c hab hbc
    rw [decide_eq_true_eq] at *
    exact le_trans hab hbc
  have htotal : ∀ (a b : SavedRec),
      (decide (sortKey since_dt a ≤ sortKey since_dt b) ||
        decide (sortKey since_dt b ≤ sortKey since_dt a)) = true := by
    intro a b
    rcases le_total (sortKey since_dt a) (sortKey since_dt b) with h | h <;>
      simp [h]
  refine ⟨?_, ?_, ?_⟩
  · exact (List.sorted_mergeSort htrans htotal l).imp
      (fun h => of_decide_eq_true h)
  · exact List.mergeSort_perm l _
  · intro a b hab hsub
    exact List.pair_sublist_mergeSort htrans htotal (decide_eq_true hab) hsub

/-- C6 witness fixtures: two records with no timestamp at all (equal
effective keys). -/
def recN1 : SavedRec :=
  { txt := "n1.txt", attachments := [], received := none,
    message_id := some "N1", date_source := "received_time",
    raw_received := none }

def recN2 : SavedRec := { recN1 with txt := "n2.txt", message_id := some "N2" }

/-- C6 witness: the two no-timestamp records (tied keys, both equal to the
`since` bound) keep their input order in the sorted output. -/
theorem sort_nondecreasing_stable_witness :
    List.Sublist [recN1, recN2]
      (sortByReceived dtAug05 [recA2, recN1, recN2]) :=
  (sort_nondecreasing_stable dtAug05 [recA2, recN1, recN2]).2.2 recN1 recN2
    (by decide) ((List.Sublist.refl [recN1, recN2]).cons recA2)

/-- The running minimum computed by Python `min(dates)` agrees with the
folded minimum of the timestamps. -/
theorem pyMinD_sec (ds : List PyDateTime) :
    ∀ d : PyDateTime,
    (pyMinD d ds).sec = List.foldl min d.sec (ds.map PyDateTime.sec) := by
  induction ds with
  | nil => intro d; rfl
  | cons x xs ih =>
    intro d
    have hstep : (if x.sec < d.sec then x else d).sec = min d.sec x.sec := by
      rcases lt_or_ge x.sec d.sec with h | h
      · rw [if_pos h, min_eq_right (le_of_lt h)]
      · rw [if_neg (not_lt.mpr h), min_eq_left h]
    rw [show pyMinD d (x :: xs) =
        pyMinD (if x.sec < d.sec then x else d) xs from rfl,
      ih, hstep, List.map_cons, List.foldl_cons]

/-- The running maximum computed by Python `max(dates)` agrees with the
folded maximum of the timestamps. -/
theorem pyMaxD_sec (ds : List PyDateTime) :
    ∀ d : PyDateTime,
    (pyMaxD d ds).sec = List.foldl max d.sec (ds.map PyDateTime.sec) := by
  induction ds with
  | nil => intro d; rfl
  | cons x xs ih =>
    intro d
    have hstep : (if x.sec > d.sec then x else d).sec = max d.sec x.sec := by
      rcases lt_or_ge d.sec x.sec with h | h
      · rw [if_pos h, max_eq_right (le_of_lt h)]
      · rw [if_neg (not_lt.mpr h), max_eq_left h]
    rw [show pyMaxD d (x :: xs) =
        pyMaxD (if x.sec > d.sec then x else d) xs from rfl,
      ih, hstep, List.map_cons, List.foldl_cons]

/-- C7: with no surviving timestamp the period bounds are `since` and
`until` themselves; with at least one, the displayed bounds are
`max(min(all canonical timestamps), since)` and
`min(max(all canonical timestamps), until)` — clamped to the requested
window even when a message timestamp falls outside it. -/
theorem period_bounds_clamped (since_dt until_dt : PyDateTime)
    (l : List SavedRec) :
    (l.filterMap (fun r => r.received) = [] →
      dateRangeBounds since_dt until_dt l = (since_dt, until_dt)) ∧
    (∀ mn mx : Int,
      ((l.filterMap (fun r => r.received)).map PyDateTime.sec).min? =
        some mn →
      ((l.filterMap (fun r => r.received)).map PyDateTime.sec).max? =
        some mx →
      (dateRangeBounds since_dt until_dt l).1.sec = max mn since_dt.sec ∧
      (dateRangeBounds since_dt until_dt l).2.sec = min mx until_dt.sec) := by
  constructor
  · intro h
    simp only [dateRangeBounds, h]
  · intro mn mx hmn hmx
    cases hd : l.filterMap (fun r => r.received) with
    | nil => rw [hd] at hmn; simp at hmn
    | cons d ds =>
      rw [hd, List.map_cons, List.min?_cons'] at hmn
      rw [hd, List.map_cons, List.max?_cons'] at hmx
      have hmn' : List.foldl min d.sec (ds.map PyDateTime.sec) = mn :=
        Option.some.inj hmn
      have hmx' : List.foldl max d.sec (ds.map PyDateTime.sec) = mx :=
        Option.some.inj hmx
      simp only [dateRangeBounds, hd]
      constructor
      · have : (if since_dt.sec > (pyMinD d ds).sec then since_dt
            else pyMinD d ds).sec = max (pyMinD d ds).sec since_dt.sec := by
          rcases le_or_lt since_dt.sec (pyMinD d ds).sec with h | h
          · rw [if_neg (not_lt.mpr h), max_eq_left h]
          · rw [if_pos h, max_eq_right (le_of_lt h)]
        rw [this, pyMinD_sec, hmn']
      · have : (if until_dt.sec < (pyMaxD d ds).sec then until_dt
            else pyMaxD d ds).sec = min (pyMaxD d ds).sec until_dt.sec := by
          rcases le_or_lt (pyMaxD d ds).sec until_dt.sec with h | h
          · rw [if_neg (not_lt.mpr h), min_eq_left h]
          · rw [if_pos h, min_eq_right (le_of_lt h)]
        rw [this, pyMaxD_sec, hmx']

/-- C7 witness fixture: one surviving record whose canonical (header) date
2025-08-15 lies beyond the requested window end. -/
def recC7 : SavedRec :=
  { txt := "c7.txt", attachments := [], received := some dtAug15,
    message_id := some "C", date_source := "header_date",
    raw_received := some dtAug05 }

/-- C7 witness (end-to-end scenario 2): window 2025-08-01 .. 2025-08-07
23:59:59; the single record's canonical date 2025-08-15 is clamped, so the
end bound equals the window end. -/
theorem period_bounds_clamped_witness :
    (dateRangeBounds { sec := 1754006400, off := none }
        { sec := 1754611199, off := none } [recC7]).2.sec = 1754611199 := by
  have h := (period_bounds_clamped { sec := 1754006400, off := none }
      { sec := 1754611199, off := none } [recC7]).2
    1755216000 1755216000 (by decide) (by decide)
  rw [h.2]
  decide

/-- C3 counterexample fixtures: two messages without provider ids that
agree on subject, sender, body and canonical timestamp (2025-08-15, via the
header date for the second) but differ in receipt time. -/
def msgC3a : RawMsg :=
  { subject := some "s", senderName := none, senderEmailAddress := some "e",
    body := some "b", receivedTime := some dtAug15,
    internetMessageID := none, entryID := none, rawHeaders := none,
    attachments := [] }

def msgC3b : RawMsg :=
  { msgC3a with
    receivedTime := some dtAug05,
    rawHeaders := some "Date: Fri, 15 Aug 2025 00:00:00 +0000" }

/-- C3 counterexample: both concrete messages lack provider ids and agree on
subject, sender, the entire body, and the canonical timestamp — yet they
receive different identities, because the fingerprint hashes the receipt
time rather than the canonical timestamp. -/
theorem identity_not_function_of_canonical_tuple :
    (save_mail_and_attachments 0 dtAug05 parsedateModel msgC3a).chosen_date =
      (save_mail_and_attachments 0 dtAug05 parsedateModel
        msgC3b).chosen_date ∧
    msgC3a.subject = msgC3b.subject ∧
    msgC3a.senderEmailAddress = msgC3b.senderEmailAddress ∧
    msgC3a.senderName = msgC3b.senderName ∧
    msgC3a.body = msgC3b.body ∧
    msgC3a.internetMessageID = none ∧ msgC3a.entryID = none ∧
    msgC3b.internetMessageID = none ∧ msgC3b.entryID = none ∧
    (save_mail_and_attachments 0 dtAug05 parsedateModel msgC3a).message_id ≠
      (save_mail_and_attachments 0 dtAug05 parsedateModel
        msgC3b).message_id := by
  decide

/-- C3 (amended): for a message lacking both provider ids the identity is
the SHA-256 hex digest of subject, sender, localized receipt time and the
first 500 body characters, joined with pipes — any two such messages
agreeing on those four components get the same identity, so reprocessing a
message with an unchanged store receipt time reproduces its identity. -/
theorem identity_fingerprint_deterministic
    (loc1 loc2 : Int) (now1 now2 : PyDateTime)
    (pd1 pd2 : String → Option PyDateTime) (m1 m2 : RawMsg)
    (h1a : truthyStr m1.internetMessageID = false)
    (h1b : truthyStr m1.entryID = false)
    (h2a : truthyStr m2.internetMessageID = false)
    (h2b : truthyStr m2.entryID = false)
    (hsubj : pyOrStr m1.subject "no_subject" =
      pyOrStr m2.subject "no_subject")
    (hsender : pyOrStr m1.senderEmailAddress (pyOrStr m1.senderName "") =
      pyOrStr m2.senderEmailAddress (pyOrStr m2.senderName ""))
    (hrec : to_naive_local1 loc1 (m1.receivedTime.getD now1) =
      to_naive_local1 loc2 (m2.receivedTime.getD now2))
    (hbody : (m1.body.getD "").data.take 500 =
      (m2.body.getD "").data.take 500) :
    (save_mail_and_attachments loc1 now1 pd1 m1).message_id =
      (save_mail_and_attachments loc2 now2 pd2 m2).message_id := by
  simp only [save_mail_and_attachments, h1a, h1b, h2a, h2b,
    Bool.false_eq_true, if_false]
  exact congrArg sha256hex (by rw [hsubj, hsender, hrec, hbody])

/-- C3 amended-claim witness: reprocessing the same message at a different
wall clock, local offset and header-date parser reproduces the identity. -/
theorem identity_fingerprint_deterministic_witness :
    (save_mail_and_attachments 0 dtAug05 parsedateModel msgC3a).message_id =
      (save_mail_and_attachments 3600 dtAug15 (fun _ => none)
        msgC3a).message_id :=
  identity_fingerprint_deterministic 0 3600 dtAug05 dtAug15 parsedateModel
    (fun _ => none) msgC3a msgC3a rfl rfl rfl rfl rfl rfl rfl rfl

/-- C8 counterexample: the response `a`-brace-`b`-brace-`c` holds no
recoverable JSON anywhere — neither the whole text nor the brace slice
parses — yet the extractor returns the inner brace block rather than the
raw text unchanged. -/
theorem recovery_returns_invalid_block :
    jsonLoadsOk "a{b}c" = false ∧
    jsonLoadsOk "{b}" = false ∧
    extractResponseJson "a{b}c" = "{b}" ∧
    "{b}" ≠ "a{b}c" := by decide

/-- C8 (amended): the response is first whitespace-stripped; if the
stripped text parses as JSON it is returned; otherwise, when a closing
brace follows the first opening brace, the slice from the first opening to
the last closing brace is returned — directly when it parses as JSON, and
through the regex scan even when it does not; only when no such brace block
exists is the stripped text returned unchanged; no path raises. -/
theorem extract_recovery_characterization (content : String) :
    (jsonLoadsOk (pyStrip content) = true →
      extractResponseJson content = pyStrip content) ∧
    (jsonLoadsOk (pyStrip content) = false →
      (∀ m, regexBraceBlock (pyStrip content) = some m →
        extractResponseJson content = m) ∧
      (regexBraceBlock (pyStrip content) = none →
        extractResponseJson content = pyStrip content)) := by
  constructor
  · intro h
    simp [extractResponseJson, h]
  · intro h
    have hres : extractResponseJson content =
        _extract_first_json_block (pyStrip content) := by
      simp [extractResponseJson, h]
    constructor
    · intro m hm
      rw [hres, _extract_first_json_block]
      rw [regexBraceBlock] at hm
      cases hs : (pyStrip content).data.findIdx? (fun c => c = '{') with
      | none => rw [hs] at hm; exact absurd hm Option.noConfusion
      | some s =>
        cases he : rfindIdx (fun c => c = '}') (pyStrip content).data with
        | none => rw [hs, he] at hm; exact absurd hm Option.noConfusion
        | some e =>
          rw [hs, he] at hm
          have hm2 : (if s < e then
              some (String.mk (((pyStrip content).data.take (e + 1)).drop s))
              else none) = some m := hm
          simp only [hs, he]
          by_cases hlt : s < e
          · rw [if_pos hlt] at hm2
            have hm3 := Option.some.inj hm2
            have hgt : e > s := hlt
            rw [if_pos hgt]
            by_cases hv : jsonLoadsOk
                ⟨((pyStrip content).data.take (e + 1)).drop s⟩ = true
            · rw [if_pos hv]
              exact hm3
            · rw [if_neg hv]
              show (match regexBraceBlock (pyStrip content) with
                | some c => c
                | none => pyStrip content) = m
              rw [regexBraceBlock, hs, he]
              show (match (if s < e then
                  some (String.mk
                    (((pyStrip content).data.take (e + 1)).drop s))
                  else none) with
                | some c => c
                | none => pyStrip content) = m
              rw [if_pos hlt]
              exact hm3
          · rw [if_neg hlt] at hm2
            exact absurd hm2 Option.noConfusion
    · intro hnone
      rw [hres, _extract_first_json_block]
      rw [regexBraceBlock] at hnone
      cases hs : (pyStrip content).data.findIdx? (fun c => c = '{') with
      | none =>
        simp only [hs]
        show (match regexBraceBlock (pyStrip content) with
          | some c => c
          | none => pyStrip content) = pyStrip content
        rw [regexBraceBlock, hs]
      | some s =>
        cases he : rfindIdx (fun c => c = '}') (pyStrip content).data with
        | none =>
          simp only [hs, he]
          show (match regexBraceBlock (pyStrip content) with
            | some c => c
            | none => pyStrip content) = pyStrip content
          rw [regexBraceBlock, hs, he]
        | some e =>
          rw [hs, he] at hnone
          have hn2 : (if s < e then
              some (String.mk (((pyStrip content).data.take (e + 1)).drop s))
              else none) = none := hnone
          by_cases hlt : s < e
          · rw [if_pos hlt] at hn2
            exact absurd hn2 Option.noConfusion
          · simp only [hs, he]
            have hgt : ¬ e > s := hlt
            rw [if_neg hgt]
            show (match regexBraceBlock (pyStrip content) with
              | some c => c
              | none => pyStrip content) = pyStrip content
            rw [regexBraceBlock, hs, he]
            show (match (if s < e then
                some (String.mk
                  (((pyStrip content).data.take (e + 1)).drop s))
                else none) with
              | some c => c
              | none => pyStrip content) = pyStrip content
            rw [if_neg hlt]

/-- C8 amended-claim witness: prose around an empty JSON object is recovered
to that object; a response with no brace-delimited content at all is
returned unchanged; a directly-valid response is returned (stripped). -/
theorem extract_recovery_characterization_witness :
    extractResponseJson "Result: {} Thanks" = "{}" ∧
    extractResponseJson "no json here" = "no json here" ∧
    extractResponseJson " [1, 2] " = "[1, 2]" := by
  refine ⟨?_, ?_, ?_⟩
  · exact ((extract_recovery_characterization "Result: {} Thanks").2
      (by decide)).1 "{}" (by decide)
  · exact ((extract_recovery_characterization "no json here").2
      (by decide)).2 (by decide)
  · exact ((extract_recovery_characterization " [1, 2] ").1
      (by decide)).trans (by decide)

end PolicyReporter
